import Mathlib

/-
Verification of `src/forms.py` (pylons-django-forms): a shallow embedding of
the module's mapping helpers (`model_to_dict`, `update_model`), the patched
file-field clean and multi-select value extractor, and the
`HTMLForm`/`FormEncodeForm` validation lifecycle, together with proofs about
them.
-/

/-- Association-list model of a Python `dict` (or an object attribute table).
Keys are strings; list order models iteration order; lookups return the first
binding. -/
abbrev Dict (V : Type) : Type := List (String × V)

/-- Python `d.get(k)`: the first binding of `k`, or `none` when absent. -/
def dlookup {V : Type} : Dict V → String → Option V
  | [], _ => none
  | (a, v) :: rest, k => if k = a then some v else dlookup rest k

/-- Python `d[k] = v`: replace the first binding of `k` when present,
otherwise append a new binding. -/
def dinsert {V : Type} : Dict V → String → V → Dict V
  | [], k, v => [(k, v)]
  | (a, w) :: rest, k, v =>
    if k = a then (k, v) :: rest else (a, w) :: dinsert rest k v

/-- Left-biased choice on `Option`, used to state lookup merging. -/
def oor {V : Type} : Option V → Option V → Option V
  | some v, _ => some v
  | none, b => b

/-- An error mapping: field name (or the whole-form key) to a list of
messages.  Models Django's `ErrorDict` as built by `full_clean`. -/
abbrev ErrorDict : Type := Dict (List String)

/-- Django's reserved whole-form error key `forms.NON_FIELD_ERRORS`, used by
`full_clean` in src/forms.py lines 232 and 320-322. -/
def NON_FIELD_ERRORS : String := "__all__"

/-!
## Sources for `model_to_dict` (src/forms.py lines 112-135)

A positional argument to `model_to_dict` is either a plain mapping or an
object.  For an object the code does `item = item.__dict__` (line 128-129);
in Python an instance's `__dict__` holds exactly the instance's own
attributes, never the attributes defined on its class, so an object source is
modelled as its instance-attribute dict paired with the class-attribute dict
that `__dict__` does not expose.
-/

/-- A positional source for `model_to_dict`: a plain dict, or an object with
an instance `__dict__` and (invisible to `__dict__`) class attributes. -/
inductive Source (V : Type) where
  | dict : Dict V → Source V
  | obj : Dict V → Dict V → Source V

/-- The mapping `model_to_dict` actually iterates for a source: the dict
itself, or the object's instance `__dict__` (src/forms.py lines 128-129). -/
def srcDict {V : Type} : Source V → Dict V
  | Source.dict d => d
  | Source.obj instAttrs _ => instAttrs

/-- Python `k.startswith('_')`: the first character of `k` is an
underscore. -/
def underscored (k : String) : Bool :=
  match k.data with
  | [] => false
  | c :: _ => c = '_'

/-- The body of `model_to_dict`'s inner loop (src/forms.py lines 130-134):
skip when `include` is non-empty and the key is absent from it; copy when the
key is not in `exclude` and does not start with an underscore. -/
def mtdStep {V : Type} (ex inc : List String) (ret : Dict V) (kv : String × V) : Dict V :=
  if !inc.isEmpty && !(inc.contains kv.1) then ret
  else if !(ex.contains kv.1) && !(underscored kv.1) then dinsert ret kv.1 kv.2
  else ret

/-- `model_to_dict(*items, exclude=ex, include=inc)` (src/forms.py lines
112-135): fold every source left to right into one mapping. -/
def model_to_dict {V : Type} (items : List (Source V)) (ex inc : List String) : Dict V :=
  items.foldl (fun ret item => (srcDict item).foldl (mtdStep ex inc) ret) []

/-- Whether `model_to_dict`'s loop copies key `k`: `include` empty or
containing `k`, `k` not excluded, `k` not underscore-prefixed. -/
def keepKey (inc ex : List String) (k : String) : Bool :=
  (inc.isEmpty || inc.contains k) && !(ex.contains k) && !(underscored k)

/-- The value `model_to_dict` ends up storing for a key that passes the
filters: the value from the last source that binds it (later sources
override earlier ones). -/
def mergeLookup {V : Type} : List (Source V) → String → Option V
  | [], _ => none
  | s :: rest, k => oor (mergeLookup rest k) (dlookup (srcDict s) k)

/-!
## Target objects for `update_model` (src/forms.py lines 137-153)

`update_model` inspects the target with `hasattr`/`getattr`/`callable` and
writes with `setattr`.  A target is modelled as an attribute table whose
entries are either plain values or callables (methods). -/

/-- An attribute of a model object: a data value, or a callable (method). -/
inductive Attr (V : Type) where
  | value : V → Attr V
  | callable : Attr V
  deriving DecidableEq

/-- Python `callable(x)` on a modelled attribute. -/
def isCallable {V : Type} : Attr V → Bool
  | Attr.value _ => false
  | Attr.callable => true

/-- `update_model(model, fields, exclude=ex, include=inc)` (src/forms.py
lines 137-153): for each field, skip when `include` is non-empty and the key
is absent from it; set the attribute when the target has it, it is not
callable, and the key is not in `exclude`.  (The code performs no
underscore-prefix check, although its docstring announces one.) -/
def update_model {V : Type} (model : Dict (Attr V)) (fields : Dict V)
    (ex inc : List String) : Dict (Attr V) :=
  fields.foldl (fun m kv =>
    if !inc.isEmpty && !(inc.contains kv.1) then m
    else
      match dlookup m kv.1 with
      | some a =>
        if !(isCallable a) && !(ex.contains kv.1) then dinsert m kv.1 (Attr.value kv.2)
        else m
      | none => m) model

/-!
## Patched file-field clean (src/forms.py lines 75-98)

`_FileField_clean` receives the submitted upload and the field's `initial`.
The claims concern upload-like submitted data (a `cgi.FieldStorage`-style
object).  Such an object is never in `fields.EMPTY_VALUES` and — thanks to
the `cgi.FieldStorage.__nonzero__` patch at line 109 — is always truthy, so
the leading `super().clean(initial or data)` required-check and the
`not self.required and data in EMPTY_VALUES` early return cannot fire for it
and are not modelled.  An `initial`, when supplied, is likewise truthy.
Attribute presence of `filename`/`length` is modelled with `Option`. -/

/-- An upload-like object: `filename`/`length` attributes, `none` meaning the
attribute is missing (`hasattr` false / `AttributeError` on access). -/
structure Upload where
  filename : Option String
  length : Option Nat
  deriving DecidableEq

/-- The distinct validation failures `_FileField_clean` can raise, keyed by
the `error_messages` entry it uses; `max_length` carries the values the code
substitutes into the message (`max` and the actual filename length). -/
inductive FileFieldError where
  | invalid : FileFieldError
  | max_length : Nat → Nat → FileFieldError
  | empty : FileFieldError
  deriving DecidableEq

/-- `_FileField_clean(self, data, initial)` (src/forms.py lines 75-98) on
upload-like submitted data, for a field with max length `maxLen`:
returns `initial` when `data` lacks `filename` and an initial is supplied;
raises `invalid` when `filename` or `length` is missing; raises `max_length`
when the filename exceeds `maxLen`; raises `invalid` on an empty filename;
raises `empty` on zero length; otherwise returns the data unchanged. -/
def fileFieldClean (maxLen : Option Nat) (data : Upload) (initialArg : Option Upload) :
    Except FileFieldError (Option Upload) :=
  if data.filename.isNone && initialArg.isSome then Except.ok initialArg
  else
    match data.filename, data.length with
    | some fn, some len =>
      let tail :=
        if fn = "" then Except.error FileFieldError.invalid
        else if len = 0 then Except.error FileFieldError.empty
        else Except.ok (some data)
      (match maxLen with
       | some m =>
         if m < fn.length then Except.error (FileFieldError.max_length m fn.length)
         else tail
       | none => tail)
    | _, _ => Except.error FileFieldError.invalid

/-!
## Patched multi-select value extractor (src/forms.py lines 60-67)

`value_from_datadict_select_multiple` dispatches on the shape of the
submitted-data mapping: Django's `MultiValueDict`, Django's `MergeDict`, any
object with a `getall` method (Paste's `MultiDict`), or a plain dict.  The
first three store a list of values per key and return all of them
(`getlist`/`getall`, empty list when the key is absent); a plain dict stores
one value and `data.get(name, None)` returns it or `None`. -/

/-- The shapes of submitted data the patched extractor distinguishes. -/
inductive DataDict (V : Type) where
  | multiValueDict : Dict (List V) → DataDict V
  | mergeDict : Dict (List V) → DataDict V
  | getallDict : Dict (List V) → DataDict V
  | plain : Dict V → DataDict V

/-- `getlist`/`getall` on a multi-valued mapping: all values for the key,
empty list when absent. -/
def getlist {V : Type} (d : Dict (List V)) (k : String) : List V :=
  (dlookup d k).getD []

/-- A Python value returned by the extractor: a list of values, a single
value, or `None`. -/
inductive DataValue (V : Type) where
  | list : List V → DataValue V
  | single : V → DataValue V
  | none : DataValue V
  deriving DecidableEq

/-- `value_from_datadict_select_multiple(self, data, files, name)`
(src/forms.py lines 60-67). -/
def value_from_datadict_select_multiple {V : Type} : DataDict V → String → DataValue V
  | DataDict.multiValueDict d, name => DataValue.list (getlist d name)
  | DataDict.mergeDict d, name => DataValue.list (getlist d name)
  | DataDict.getallDict d, name => DataValue.list (getlist d name)
  | DataDict.plain d, name =>
    match dlookup d name with
    | some v => DataValue.single v
    | none => DataValue.none

/-!
## `HTMLForm` lifecycle (src/forms.py lines 159-264) and
`FormEncodeForm.full_clean` (lines 306-324)

The mutable instance is modelled as an explicit state record; each method is
a state transformer.  `_errors = None` (validation not yet run) is modelled
as `Option`; likewise the presence of the `cleaned_data` attribute.  The
overridable `clean()` hook is a parameter: it receives the current
`cleaned_data` and either returns the new cleaned data or raises a
`ValidationError` carrying a message list. -/

/-- State of an `HTMLForm` (or the `HTMLForm` part of a `FormEncodeForm`). -/
structure HTMLForm (V : Type) where
  is_bound : Bool
  data : Dict V
  files : Dict V
  initial : Dict V
  html : String
  _errors : Option ErrorDict
  cleaned_data : Option (Dict V)

/-- Python `x or {}` as used in `HTMLForm.__init__` (lines 209-211): `None`
(and the empty dict, the only falsy dict) becomes the empty mapping. -/
def orEmpty {V : Type} : Option (Dict V) → Dict V
  | some d => d
  | none => []

/-- `HTMLForm.__init__(self, data, files, html, initial)` (src/forms.py lines
207-214); `classHtml` is the class-level `html` attribute used when the
`html` argument is `None`. -/
def HTMLForm.init {V : Type} (dataArg filesArg : Option (Dict V)) (htmlArg : Option String)
    (initialArg : Option (Dict V)) (classHtml : String) : HTMLForm V where
  is_bound := dataArg.isSome || filesArg.isSome
  data := orEmpty dataArg
  files := orEmpty filesArg
  initial := orEmpty initialArg
  html := htmlArg.getD classHtml
  _errors := none
  cleaned_data := none

/-- Behaviour of the overridable `clean()` hook: from the current
`cleaned_data`, either new cleaned data or a raised `ValidationError` with
its message list. -/
def CleanHook (V : Type) : Type := Dict V → Except (List String) (Dict V)

/-- The default `HTMLForm.clean` (src/forms.py lines 220-221): return
`self.cleaned_data` unchanged. -/
def defaultClean {V : Type} : CleanHook V := fun cd => Except.ok cd

/-- `HTMLForm.full_clean` (src/forms.py lines 223-234): reset `_errors` to
empty; stop if unbound; set `cleaned_data` to `data`, run `clean()`, record a
raised failure under `NON_FIELD_ERRORS`; finally delete `cleaned_data` when
`_errors` is non-empty. -/
def HTMLForm.full_clean {V : Type} (clean : CleanHook V) (f : HTMLForm V) : HTMLForm V :=
  let f := { f with _errors := some [] }
  if !f.is_bound then f
  else
    let f := { f with cleaned_data := some f.data }
    let f :=
      match clean f.data with
      | Except.ok cd => { f with cleaned_data := some cd }
      | Except.error msgs => { f with _errors := some [(NON_FIELD_ERRORS, msgs)] }
    if (f._errors.getD []).isEmpty then f else { f with cleaned_data := none }

/-- The `errors` property (`HTMLForm._get_errors`, src/forms.py lines
236-241): run `full_clean` on first access, memoize in `_errors`; returns the
possibly-updated state and the error mapping. -/
def HTMLForm.get_errors {V : Type} (clean : CleanHook V) (f : HTMLForm V) :
    HTMLForm V × ErrorDict :=
  match f._errors with
  | none =>
    let g := HTMLForm.full_clean clean f
    (g, g._errors.getD [])
  | some e => (f, e)

/-- `HTMLForm.is_valid` (src/forms.py lines 216-218): assign
`self.cleaned_data = self.data`, then return `self.is_bound and not
bool(self.errors)` — the `and` short-circuits, so `errors` is only consulted
(and validation only triggered) for a bound form. -/
def HTMLForm.is_valid {V : Type} (clean : CleanHook V) (f : HTMLForm V) :
    HTMLForm V × Bool :=
  let f := { f with cleaned_data := some f.data }
  if f.is_bound then
    let fe := HTMLForm.get_errors clean f
    (fe.1, fe.2.isEmpty)
  else (f, false)

/-- The arguments `HTMLForm.__unicode__` passes to
`formencode.htmlfill.render` (src/forms.py lines 243-264): the template, the
defaults mapping, and the error mapping.  (The charset argument comes from
the ambient Pylons response and is not modelled.) -/
structure RenderCall (V : Type) where
  form : String
  defaults : Dict V
  errs : ErrorDict

/-- `HTMLForm.__unicode__` (src/forms.py lines 243-264): render with
`initial` as defaults for an unbound form and `data` for a bound one, with
the (lazily computed) `errors` overlaid in both branches. -/
def HTMLForm.unicodeRender {V : Type} (clean : CleanHook V) (f : HTMLForm V) :
    HTMLForm V × RenderCall V :=
  let fe := HTMLForm.get_errors clean f
  if !(fe.1).is_bound then
    (fe.1, { form := fe.1.html, defaults := fe.1.initial, errs := fe.2 })
  else
    (fe.1, { form := fe.1.html, defaults := fe.1.data, errs := fe.2 })

/-- Behaviour of `formencode.Schema.to_python` on the submitted data: the
converted mapping, or a raised `formencode.Invalid` whose `unpack_errors()`
is a per-field error mapping. -/
def ToPython (V : Type) : Type := Dict V → Except ErrorDict (Dict V)

/-- `FormEncodeForm.full_clean` (src/forms.py lines 306-324): reset
`_errors`; stop if unbound; set `cleaned_data` to `{}`; run the schema's
`to_python` on `data`, recording its unpacked errors as the whole `_errors`
mapping on failure; then run the overridable `clean()` hook on the current
`cleaned_data`, recording a raised failure under `NON_FIELD_ERRORS`; finally
delete `cleaned_data` when `_errors` is non-empty. -/
def FormEncodeForm.full_clean {V : Type} (to_python : ToPython V) (clean : CleanHook V)
    (f : HTMLForm V) : HTMLForm V :=
  let f := { f with _errors := some [] }
  if !f.is_bound then f
  else
    let f := { f with cleaned_data := some [] }
    let f :=
      match to_python f.data with
      | Except.ok cd => { f with cleaned_data := some cd }
      | Except.error ed => { f with _errors := some ed }
    let f :=
      match clean (f.cleaned_data.getD []) with
      | Except.ok cd => { f with cleaned_data := some cd }
      | Except.error msgs =>
        { f with _errors := some (dinsert (f._errors.getD []) NON_FIELD_ERRORS msgs) }
    if (f._errors.getD []).isEmpty then f else { f with cleaned_data := none }

/-!
## Concrete fixtures used by counterexamples and witnesses -/

/-- A `clean()` override that always raises `ValidationError(["bad"])`. -/
def badClean : CleanHook String := fun _ => Except.error ["bad"]

/-- A bound form: `HTMLForm({'a': '1'})`. -/
def sampleBoundForm : HTMLForm String :=
  HTMLForm.init (some [("a", "1")]) none none none ""

/-- The state after calling `is_valid()` twice on `sampleBoundForm` with the
always-failing `clean()` override. -/
def formAfterTwoIsValid : HTMLForm String :=
  (HTMLForm.is_valid badClean (HTMLForm.is_valid badClean sampleBoundForm).1).1

/-- Schema behaviour that converts successfully and returns the data. -/
def okToPython : ToPython String := fun d => Except.ok d

/-!
## Helper lemmas about the dictionary model -/

theorem oor_assoc {V : Type} (a b c : Option V) : oor a (oor b c) = oor (oor a b) c := by
  cases a <;> cases b <;> rfl

theorem oor_none_right {V : Type} (a : Option V) : oor a none = a := by
  cases a <;> rfl

theorem dinsert_isEmpty {V : Type} (d : Dict V) (k : String) (v : V) :
    (dinsert d k v).isEmpty = false := by
  cases d with
  | nil => rfl
  | cons hd tl =>
    obtain ⟨a, w⟩ := hd
    by_cases h : k = a <;> simp [dinsert, h]

theorem dlookup_dinsert {V : Type} (d : Dict V) (k a : String) (v : V) :
    dlookup (dinsert d k v) a = if a = k then some v else dlookup d a := by
  induction d with
  | nil => simp [dinsert, dlookup]
  | cons hd tl ih =>
    obtain ⟨b, w⟩ := hd
    by_cases hkb : k = b
    · subst hkb
      by_cases hak : a = k <;> simp [dinsert, dlookup, hak]
    · by_cases hab : a = b
      · subst hab
        have hak : ¬a = k := fun h => hkb h.symm
        simp [dinsert, hkb, dlookup, hak]
      · simp [dinsert, hkb, dlookup, hab, ih]

theorem dlookup_eq_none_of_not_mem {V : Type} (d : Dict V) (k : String)
    (h : k ∉ d.map Prod.fst) : dlookup d k = none := by
  induction d with
  | nil => rfl
  | cons hd tl ih =>
    obtain ⟨a, v⟩ := hd
    simp only [List.map_cons, List.mem_cons] at h
    push_neg at h
    simp [dlookup, h.1, ih h.2]

theorem mtdStep_eq {V : Type} (ex inc : List String) (ret : Dict V) (kv : String × V) :
    mtdStep ex inc ret kv =
      if keepKey inc ex kv.1 then dinsert ret kv.1 kv.2 else ret := by
  obtain ⟨a, v⟩ := kv
  simp only [mtdStep, keepKey]
  cases hinc : inc.isEmpty <;> cases hc : inc.contains a <;>
    cases hex : ex.contains a <;> cases hs : underscored a <;> simp

theorem foldl_mtdStep_dlookup {V : Type} (ex inc : List String) (k : String)
    (item : Dict V) :
    ∀ ret : Dict V, (item.map Prod.fst).Nodup →
      dlookup (item.foldl (mtdStep ex inc) ret) k =
        oor (if keepKey inc ex k then dlookup item k else none) (dlookup ret k) := by
  induction item with
  | nil =>
    intro ret _
    cases hkeep : keepKey inc ex k <;> simp [dlookup, oor]
  | cons hd tl ih =>
    intro ret hnodup
    obtain ⟨a, v⟩ := hd
    simp only [List.map_cons, List.nodup_cons] at hnodup
    rw [List.foldl_cons, ih _ hnodup.2, mtdStep_eq]
    by_cases hka : k = a
    · subst hka
      cases hkeep : keepKey inc ex k
      · simp [hkeep, dlookup]
      · simp [hkeep, dlookup, dlookup_dinsert,
          dlookup_eq_none_of_not_mem tl k hnodup.1, oor]
    · by_cases hkeepa : keepKey inc ex a <;>
        cases hkeep : keepKey inc ex k <;>
        simp [hkeepa, hkeep, dlookup, hka, dlookup_dinsert]

theorem foldl_sources_dlookup {V : Type} (ex inc : List String) (k : String)
    (items : List (Source V)) :
    ∀ ret : Dict V, (∀ s ∈ items, ((srcDict s).map Prod.fst).Nodup) →
      dlookup (items.foldl (fun r item => (srcDict item).foldl (mtdStep ex inc) r) ret) k =
        oor (if keepKey inc ex k then mergeLookup items k else none) (dlookup ret k) := by
  induction items with
  | nil =>
    intro ret _
    cases hkeep : keepKey inc ex k <;> simp [mergeLookup, oor]
  | cons s rest ih =>
    intro ret hn
    have hs := hn s (List.mem_cons_self s rest)
    have hrest : ∀ t ∈ rest, ((srcDict t).map Prod.fst).Nodup :=
      fun t ht => hn t (List.mem_cons_of_mem s ht)
    rw [List.foldl_cons, ih _ hrest, foldl_mtdStep_dlookup ex inc k _ _ hs]
    cases hkeep : keepKey inc ex k
    · simp [oor]
    · simp only [if_pos, mergeLookup]
      exact oor_assoc _ _ _

theorem model_to_dict_dlookup {V : Type} (items : List (Source V)) (ex inc : List String)
    (k : String) (hn : ∀ s ∈ items, ((srcDict s).map Prod.fst).Nodup) :
    dlookup (model_to_dict items ex inc) k =
      if keepKey inc ex k then mergeLookup items k else none := by
  rw [model_to_dict, foldl_sources_dlookup ex inc k items [] hn]
  exact oor_none_right _

theorem foldl_mtdStep_isSome {V : Type} (ex inc : List String) (k : String)
    (item : Dict V) :
    ∀ ret : Dict V, (dlookup (item.foldl (mtdStep ex inc) ret) k).isSome = true →
      (dlookup ret k).isSome = true ∨ k ∈ item.map Prod.fst := by
  induction item with
  | nil => intro ret h; exact Or.inl h
  | cons hd tl ih =>
    intro ret h
    obtain ⟨a, v⟩ := hd
    rw [List.foldl_cons] at h
    rcases ih _ h with h2 | h2
    · by_cases hka : k = a
      · exact Or.inr (by simp [hka])
      · left
        rw [mtdStep_eq] at h2
        cases hkeep : keepKey inc ex a
        · simpa [hkeep] using h2
        · rw [if_pos (by simp [hkeep]), dlookup_dinsert, if_neg hka] at h2
          exact h2
    · exact Or.inr (by simp [h2])

/-!
## Claim theorems -/

/-- Claim C2: for an unbound `HTMLForm` (constructed with `data=None` and
`files=None`), `is_valid()` returns false, the `errors` mapping is empty, and
rendering fills the template using `initial` as defaults, never the
submitted-data path. -/
theorem unbound_form_behavior {V : Type} (clean : CleanHook V) (htmlArg : Option String)
    (initialArg : Option (Dict V)) (classHtml : String) :
    (HTMLForm.is_valid clean (HTMLForm.init none none htmlArg initialArg classHtml)).2 = false
    ∧ (HTMLForm.get_errors clean (HTMLForm.init none none htmlArg initialArg classHtml)).2 = []
    ∧ (HTMLForm.unicodeRender clean (HTMLForm.init none none htmlArg initialArg classHtml)).2.defaults
        = (HTMLForm.init (V := V) none none htmlArg initialArg classHtml).initial :=
  ⟨rfl, rfl, rfl⟩

/-- Claim C9: `is_bound` is true exactly when the `data` or `files` argument
is non-`None`; a form constructed with an empty mapping as `data` is bound;
falsy `data`/`files`/`initial` arguments are stored as empty mappings. -/
theorem htmlform_init_bound {V : Type} (dataArg filesArg : Option (Dict V))
    (htmlArg : Option String) (initialArg : Option (Dict V)) (classHtml : String) :
    (HTMLForm.init dataArg filesArg htmlArg initialArg classHtml).is_bound
        = (dataArg.isSome || filesArg.isSome)
    ∧ (HTMLForm.init (V := V) (some []) none htmlArg initialArg classHtml).is_bound = true
    ∧ (HTMLForm.init (V := V) none none htmlArg none classHtml).data = []
    ∧ (HTMLForm.init (V := V) none none htmlArg none classHtml).files = []
    ∧ (HTMLForm.init (V := V) none none htmlArg none classHtml).initial = []
    ∧ (HTMLForm.init (V := V) (some []) (some []) htmlArg (some []) classHtml).data = []
    ∧ (HTMLForm.init (V := V) (some []) (some []) htmlArg (some []) classHtml).files = []
    ∧ (HTMLForm.init (V := V) (some []) (some []) htmlArg (some []) classHtml).initial = [] :=
  ⟨rfl, rfl, rfl, rfl, rfl, rfl, rfl, rfl⟩

/-- Claim C3: for a bound `HTMLForm` whose `clean()` is not overridden (the
default hook), `is_valid()` returns true and afterwards `cleaned_data` equals
the stored submitted-data mapping. -/
theorem bound_default_clean_is_valid {V : Type} (dataArg filesArg : Option (Dict V))
    (htmlArg : Option String) (initialArg : Option (Dict V)) (classHtml : String)
    (hb : (HTMLForm.init dataArg filesArg htmlArg initialArg classHtml).is_bound = true) :
    (HTMLForm.is_valid defaultClean
        (HTMLForm.init dataArg filesArg htmlArg initialArg classHtml)).2 = true
    ∧ (HTMLForm.is_valid defaultClean
        (HTMLForm.init dataArg filesArg htmlArg initialArg classHtml)).1.cleaned_data
        = some (HTMLForm.init dataArg filesArg htmlArg initialArg classHtml).data := by
  rcases dataArg with _ | d
  · rcases filesArg with _ | fl
    · exact absurd hb (by simp [HTMLForm.init])
    · exact ⟨rfl, rfl⟩
  · exact ⟨rfl, rfl⟩

theorem bound_default_clean_is_valid_witness :
    (HTMLForm.init (V := String) (some [("a", "1")]) none none none "").is_bound = true
    ∧ ((HTMLForm.is_valid defaultClean
          (HTMLForm.init (V := String) (some [("a", "1")]) none none none "")).2 = true
      ∧ (HTMLForm.is_valid defaultClean
          (HTMLForm.init (V := String) (some [("a", "1")]) none none none "")).1.cleaned_data
          = some (HTMLForm.init (V := String) (some [("a", "1")]) none none none "").data) :=
  ⟨rfl, bound_default_clean_is_valid (some [("a", "1")]) none none none "" rfl⟩

/-- Claim C4: for a bound `HTMLForm` whose `clean()` raises
`ValidationError(["bad"])`, `is_valid()` returns false, the errors mapping
holds `["bad"]` under the reserved whole-form key, and `cleaned_data` is
absent afterwards. -/
theorem bound_failing_clean_behavior {V : Type} (clean : CleanHook V)
    (dataArg filesArg : Option (Dict V)) (htmlArg : Option String)
    (initialArg : Option (Dict V)) (classHtml : String)
    (hclean : ∀ cd : Dict V, clean cd = Except.error ["bad"])
    (hb : (HTMLForm.init dataArg filesArg htmlArg initialArg classHtml).is_bound = true) :
    (HTMLForm.is_valid clean (HTMLForm.init dataArg filesArg htmlArg initialArg classHtml)).2
        = false
    ∧ dlookup ((HTMLForm.is_valid clean
          (HTMLForm.init dataArg filesArg htmlArg initialArg classHtml)).1._errors.getD [])
        NON_FIELD_ERRORS = some ["bad"]
    ∧ (HTMLForm.is_valid clean
          (HTMLForm.init dataArg filesArg htmlArg initialArg classHtml)).1.cleaned_data
        = none := by
  rcases dataArg with _ | d
  · rcases filesArg with _ | fl
    · exact absurd hb (by simp [HTMLForm.init])
    · refine ⟨?_, ?_, ?_⟩ <;>
        simp [HTMLForm.is_valid, HTMLForm.get_errors, HTMLForm.full_clean, HTMLForm.init,
          hclean, dlookup, NON_FIELD_ERRORS, orEmpty]
  · refine ⟨?_, ?_, ?_⟩ <;>
      simp [HTMLForm.is_valid, HTMLForm.get_errors, HTMLForm.full_clean, HTMLForm.init,
        hclean, dlookup, NON_FIELD_ERRORS, orEmpty]

theorem bound_failing_clean_behavior_witness :
    (∀ cd : Dict String, badClean cd = Except.error ["bad"])
    ∧ sampleBoundForm.is_bound = true
    ∧ ((HTMLForm.is_valid badClean sampleBoundForm).2 = false
      ∧ dlookup ((HTMLForm.is_valid badClean sampleBoundForm).1._errors.getD [])
          NON_FIELD_ERRORS = some ["bad"]
      ∧ (HTMLForm.is_valid badClean sampleBoundForm).1.cleaned_data = none) :=
  ⟨fun _ => rfl, rfl,
    bound_failing_clean_behavior badClean (some [("a", "1")]) none none none ""
      (fun _ => rfl) rfl⟩

/-- Claim C1 (counterexample): on a bound form whose `clean()` always fails,
after one failed validation pass a second `is_valid()` call re-creates
`cleaned_data` (via its unconditional `self.cleaned_data = self.data`
assignment) while the memoized `_errors` of the most recent — failed —
validation pass is non-empty, so `cleaned_data` does not exist "iff the most
recent validation pass produced an empty `_errors`". -/
theorem cleaned_data_invariant_counterexample :
    formAfterTwoIsValid.cleaned_data = some [("a", "1")]
    ∧ formAfterTwoIsValid._errors = some [("__all__", ["bad"])] :=
  ⟨rfl, rfl⟩

/-- Claim C1 (amended): immediately after a run of `HTMLForm.full_clean` or
`FormEncodeForm.full_clean` on a bound form, `cleaned_data` exists iff that
pass produced an empty `_errors`; the original claim fails only because a
later `is_valid()` call re-creates `cleaned_data` without re-validating. -/
theorem cleaned_data_invariant_after_full_clean {V : Type} (clean : CleanHook V)
    (to_python : ToPython V) (f g : HTMLForm V)
    (hf : f.is_bound = true) (hg : g.is_bound = true) :
    ((HTMLForm.full_clean clean f).cleaned_data.isSome = true
        ↔ ((HTMLForm.full_clean clean f)._errors.getD []).isEmpty = true)
    ∧ ((FormEncodeForm.full_clean to_python clean g).cleaned_data.isSome = true
        ↔ ((FormEncodeForm.full_clean to_python clean g)._errors.getD []).isEmpty = true) := by
  constructor
  · cases hcl : clean f.data <;>
      simp [HTMLForm.full_clean, hf, hcl]
  · cases htp : to_python g.data
    case error ed =>
      cases hcl : clean ([] : Dict V)
      case error msgs =>
        simp [FormEncodeForm.full_clean, hg, htp, hcl, dinsert_isEmpty]
      case ok cd =>
        cases hed : ed.isEmpty <;>
          simp [FormEncodeForm.full_clean, hg, htp, hcl, hed]
    case ok cd =>
      cases hcl : clean cd
      case error msgs =>
        simp [FormEncodeForm.full_clean, hg, htp, hcl, dinsert_isEmpty]
      case ok cd2 =>
        simp [FormEncodeForm.full_clean, hg, htp, hcl]

theorem cleaned_data_invariant_after_full_clean_witness :
    sampleBoundForm.is_bound = true
    ∧ (((HTMLForm.full_clean badClean sampleBoundForm).cleaned_data.isSome = true
        ↔ ((HTMLForm.full_clean badClean sampleBoundForm)._errors.getD []).isEmpty = true)
      ∧ ((FormEncodeForm.full_clean okToPython badClean sampleBoundForm).cleaned_data.isSome
            = true
        ↔ ((FormEncodeForm.full_clean okToPython badClean
              sampleBoundForm)._errors.getD []).isEmpty = true)) :=
  ⟨rfl, cleaned_data_invariant_after_full_clean badClean okToPython
    sampleBoundForm sampleBoundForm rfl rfl⟩

/-- Claim C5 (code bug): `update_model`'s docstring announces that fields
with an underscore prefix are excluded, but the code performs no such check:
on a target whose non-callable attribute `_x` is `0`, `update_model` with
fields `{'_x': 5}` sets `_x` to `5` instead of skipping it. -/
theorem update_model_underscore_not_skipped :
    update_model [("_x", Attr.value (0 : Int))] [("_x", (5 : Int))] [] [] =
      [("_x", Attr.value (5 : Int))] := rfl

/-- Claim C6: `model_to_dict({'a':1,'_b':2,'c':3}, exclude=['c'])` yields
`{'a':1}`; `model_to_dict({'a':1}, {'a':2})` yields `{'a':2}`; and in
general, for sources whose keys are duplicate-free, a key is present in the
result exactly when it passes the include/exclude/underscore filters and some
source binds it, with the latest binding source winning. -/
theorem model_to_dict_correct :
    model_to_dict [Source.dict [("a", (1 : Int)), ("_b", 2), ("c", 3)]] ["c"] [] = [("a", 1)]
    ∧ model_to_dict [Source.dict [("a", (1 : Int))], Source.dict [("a", 2)]] [] [] = [("a", 2)]
    ∧ ∀ (V : Type) (items : List (Source V)) (ex inc : List String) (k : String),
        (∀ s ∈ items, ((srcDict s).map Prod.fst).Nodup) →
        dlookup (model_to_dict items ex inc) k =
          if keepKey inc ex k then mergeLookup items k else none :=
  ⟨rfl, rfl, fun _ items ex inc k hn => model_to_dict_dlookup items ex inc k hn⟩

theorem model_to_dict_correct_witness :
    (∀ s ∈ [Source.dict [("a", (1 : Int))], Source.dict [("a", 2)]],
        ((srcDict s).map Prod.fst).Nodup)
    ∧ dlookup (model_to_dict [Source.dict [("a", (1 : Int))], Source.dict [("a", 2)]] [] []) "a"
        = if keepKey [] [] "a" then
            mergeLookup [Source.dict [("a", (1 : Int))], Source.dict [("a", 2)]] "a"
          else none :=
  ⟨by decide,
    model_to_dict_correct.2.2 Int [Source.dict [("a", 1)], Source.dict [("a", 2)]] [] [] "a"
      (by decide)⟩

/-- Claim C10: an object source contributes only the keys of its own
instance `__dict__`; the class-attribute side is never consulted, and every
key of the result comes from the instance attribute dict. -/
theorem model_to_dict_object_sources {V : Type} (instAttrs classAttrs : Dict V)
    (ex inc : List String) :
    model_to_dict [Source.obj instAttrs classAttrs] ex inc
        = model_to_dict [Source.dict instAttrs] ex inc
    ∧ ∀ k : String,
        (dlookup (model_to_dict [Source.obj instAttrs classAttrs] ex inc) k).isSome = true →
          k ∈ instAttrs.map Prod.fst := by
  refine ⟨rfl, fun k hk => ?_⟩
  have h2 : (dlookup (instAttrs.foldl (mtdStep ex inc) ([] : Dict V)) k).isSome = true := by
    simpa [model_to_dict, srcDict] using hk
  rcases foldl_mtdStep_isSome ex inc k instAttrs [] h2 with h3 | h3
  · simp [dlookup] at h3
  · exact h3

theorem model_to_dict_object_sources_witness :
    "x" ∈ ([("x", (1 : Int))].map Prod.fst) :=
  (model_to_dict_object_sources [("x", (1 : Int))] [("hidden", (2 : Int))] [] []).2 "x"
    (by decide)

/-- Claim C7 (counterexample): an upload-like object missing the `filename`
attribute is NOT rejected with "invalid" when an `initial` is supplied — the
`elif not hasattr(data, 'filename') and initial` branch (src/forms.py lines
79-80) returns the initial instead. -/
theorem fileFieldClean_missing_filename_counterexample :
    fileFieldClean none ⟨none, some 1⟩ (some ⟨some "f", some 1⟩) =
        Except.ok (some ⟨some "f", some 1⟩)
    ∧ fileFieldClean none ⟨none, some 1⟩ (some ⟨some "f", some 1⟩) ≠
        Except.error FileFieldError.invalid := by
  refine ⟨rfl, fun h => ?_⟩
  rw [show fileFieldClean none ⟨none, some 1⟩ (some ⟨some "f", some 1⟩) =
      Except.ok (some ⟨some "f", some 1⟩) from rfl] at h
  exact Except.noConfusion h

/-- Claim C7 (amended): for upload-like data on a bound file field: a missing
`filename` attribute is rejected with "invalid" only when no `initial` is
supplied (with an `initial`, the initial is returned instead); a missing
`length` attribute is rejected with "invalid"; with a configured max length
and a longer filename the field is rejected with "max_length" carrying the
actual filename length; an empty filename is rejected with "invalid"; a zero
length is rejected with "empty"; otherwise the data is returned unchanged. -/
theorem fileFieldClean_behavior :
    (∀ (maxLen : Option Nat) (len : Option Nat),
        fileFieldClean maxLen ⟨none, len⟩ none = Except.error FileFieldError.invalid)
    ∧ (∀ (maxLen : Option Nat) (len : Option Nat) (ini : Upload),
        fileFieldClean maxLen ⟨none, len⟩ (some ini) = Except.ok (some ini))
    ∧ (∀ (maxLen : Option Nat) (fn : String) (ini : Option Upload),
        fileFieldClean maxLen ⟨some fn, none⟩ ini = Except.error FileFieldError.invalid)
    ∧ (∀ (m : Nat) (fn : String) (len : Nat) (ini : Option Upload),
        m < fn.length →
        fileFieldClean (some m) ⟨some fn, some len⟩ ini =
          Except.error (FileFieldError.max_length m fn.length))
    ∧ (∀ (maxLen : Option Nat) (len : Nat) (ini : Option Upload),
        fileFieldClean maxLen ⟨some "", some len⟩ ini = Except.error FileFieldError.invalid)
    ∧ (∀ (maxLen : Option Nat) (fn : String) (ini : Option Upload),
        fn ≠ "" → (∀ m, maxLen = some m → fn.length ≤ m) →
        fileFieldClean maxLen ⟨some fn, some 0⟩ ini = Except.error FileFieldError.empty)
    ∧ (∀ (maxLen : Option Nat) (fn : String) (len : Nat) (ini : Option Upload),
        fn ≠ "" → len ≠ 0 → (∀ m, maxLen = some m → fn.length ≤ m) →
        fileFieldClean maxLen ⟨some fn, some len⟩ ini =
          Except.ok (some ⟨some fn, some len⟩)) := by
  refine ⟨?_, ?_, ?_, ?_, ?_, ?_, ?_⟩
  · intro maxLen len
    cases maxLen <;> rfl
  · intro maxLen len ini
    rfl
  · intro maxLen fn ini
    cases ini <;> rfl
  · intro m fn len ini h
    cases ini <;> simp [fileFieldClean, h]
  · intro maxLen len ini
    cases ini <;> cases maxLen <;> simp [fileFieldClean]
  · intro maxLen fn ini h1 h2
    cases ini <;> cases maxLen with
      | none => simp [fileFieldClean, h1]
      | some m =>
        have hm : ¬m < fn.length := Nat.not_lt.mpr (h2 m rfl)
        simp [fileFieldClean, h1, hm]
  · intro maxLen fn len ini h1 h0 h2
    cases ini <;> cases maxLen with
      | none => simp [fileFieldClean, h1, h0]
      | some m =>
        have hm : ¬m < fn.length := Nat.not_lt.mpr (h2 m rfl)
        simp [fileFieldClean, h1, h0, hm]

theorem fileFieldClean_behavior_witness :
    fileFieldClean none ⟨none, some 1⟩ none = Except.error FileFieldError.invalid
    ∧ fileFieldClean none ⟨none, some 1⟩ (some ⟨some "g", some 2⟩)
        = Except.ok (some ⟨some "g", some 2⟩)
    ∧ fileFieldClean none ⟨some "f", none⟩ none = Except.error FileFieldError.invalid
    ∧ fileFieldClean (some 1) ⟨some "ab", some 3⟩ none
        = Except.error (FileFieldError.max_length 1 "ab".length)
    ∧ fileFieldClean none ⟨some "", some 3⟩ none = Except.error FileFieldError.invalid
    ∧ fileFieldClean (some 5) ⟨some "ab", some 0⟩ none = Except.error FileFieldError.empty
    ∧ fileFieldClean (some 5) ⟨some "ab", some 3⟩ none
        = Except.ok (some ⟨some "ab", some 3⟩) :=
  ⟨fileFieldClean_behavior.1 none (some 1),
    fileFieldClean_behavior.2.1 none (some 1) ⟨some "g", some 2⟩,
    fileFieldClean_behavior.2.2.1 none "f" none,
    fileFieldClean_behavior.2.2.2.1 1 "ab" 3 none (by decide),
    fileFieldClean_behavior.2.2.2.2.1 none 3 none,
    fileFieldClean_behavior.2.2.2.2.2.1 (some 5) "ab" none (by decide)
      (fun m hm => by cases hm; decide),
    fileFieldClean_behavior.2.2.2.2.2.2 (some 5) "ab" 3 none (by decide) (by decide)
      (fun m hm => by cases hm; decide)⟩

/-- Claim C8: the patched multi-select extractor returns all values bound to
`"choices"` for each of the three multi-valued-mapping shapes, and for a
plain mapping returns the single stored value or `None` when absent. -/
theorem select_multiple_value_extraction :
    value_from_datadict_select_multiple
        (DataDict.multiValueDict [("choices", ["a", "b"])]) "choices"
        = DataValue.list ["a", "b"]
    ∧ value_from_datadict_select_multiple
        (DataDict.mergeDict [("choices", ["a", "b"])]) "choices"
        = DataValue.list ["a", "b"]
    ∧ value_from_datadict_select_multiple
        (DataDict.getallDict [("choices", ["a", "b"])]) "choices"
        = DataValue.list ["a", "b"]
    ∧ (∀ (V : Type) (d : Dict V) (name : String) (v : V),
        dlookup d name = some v →
        value_from_datadict_select_multiple (DataDict.plain d) name = DataValue.single v)
    ∧ (∀ (V : Type) (d : Dict V) (name : String),
        dlookup d name = none →
        value_from_datadict_select_multiple (DataDict.plain d) name = DataValue.none) := by
  refine ⟨rfl, rfl, rfl, ?_, ?_⟩
  · intro V d name v h
    simp [value_from_datadict_select_multiple, h]
  · intro V d name h
    simp [value_from_datadict_select_multiple, h]

theorem select_multiple_value_extraction_witness :
    dlookup [("choices", "a")] "choices" = some "a"
    ∧ value_from_datadict_select_multiple (DataDict.plain [("choices", "a")]) "choices"
        = DataValue.single "a"
    ∧ dlookup ([] : Dict String) "choices" = none
    ∧ value_from_datadict_select_multiple (DataDict.plain ([] : Dict String)) "choices"
        = DataValue.none :=
  ⟨rfl,
    select_multiple_value_extraction.2.2.2.1 String [("choices", "a")] "choices" "a" rfl,
    rfl,
    select_multiple_value_extraction.2.2.2.2 String [] "choices" rfl⟩
